import Mathlib

/-!
Verification development for the CapForEat_GEM client application.

The repository contains two application variants (src/index.tsx and
src/app.tsx) sharing a persistence and resilience layer: a retry wrapper
around the inference call (analyzeImageWithRetry), an inference client
(analyzeImage), an image recompression helper (compressImage), and a
capacity-bounded local history store (saveMealRecord / getMealHistory in
index.tsx; handleSaveRecord / saveData / loadData in app.tsx).

The definitions below are a shallow embedding of that layer.  External
collaborators (the Gemini API call, the host JSON.parse, the canvas
re-encoder, localStorage) are modelled as explicit parameters, so every
definition is executable.  JavaScript exceptions are modelled with
Except; a JavaScript Error object is modelled by the JsError structure
(its name, message and optional numeric status).
-/

/-- Substring test on character lists: sub is a prefix of l. -/
def hasPrefixL : List Char → List Char → Bool
  | _, [] => true
  | [], _ :: _ => false
  | a :: as, b :: bs => a == b && hasPrefixL as bs

/-- Substring test on character lists: sub occurs inside l. -/
def hasInfixL (sub : List Char) : List Char → Bool
  | [] => sub.isEmpty
  | a :: as => hasPrefixL (a :: as) sub || hasInfixL sub as

/-- Model of JavaScript String.prototype.includes: s contains sub. -/
def strContains (s sub : String) : Bool :=
  hasInfixL sub.data s.data

/-- Model of a JavaScript Error value as observed by the code: its name,
its message, and its optional numeric status field (absent on plain
newly-constructed Errors). -/
structure JsError where
  name : String
  msg : String
  status : Option Nat
deriving DecidableEq, Repr

/-- The transient-failure test of analyzeImageWithRetry (index.tsx line
476): error.status === 503 || error.status === 429. -/
def isTransient (e : JsError) : Bool :=
  e.status == some 503 || e.status == some 429

/-- Result shape of the unchecked cast JSON.parse(text) as AnalysisResult
(index.tsx line 558): at the JavaScript runtime every property of the
parsed object may be absent (undefined), so each field is an Option.
The macros sub-object, when present, may itself miss fields. -/
structure ParsedMacros where
  protein : Option Int
  carbs : Option Int
  fat : Option Int
  fiber : Option Int
deriving DecidableEq, Repr

/-- The parsed analysis result as the untyped runtime sees it; see
ParsedMacros.  A fully populated value corresponds to a payload carrying
all six top-level fields. -/
structure ParsedAnalysisResult where
  foodName : Option String
  calories : Option Int
  servingSize : Option String
  macros : Option ParsedMacros
  healthAnalysis : Option String
  rating : Option Int
deriving DecidableEq, Repr

/-- Outcome of the ai.models.generateContent call (index.tsx line 528):
either the call threw a JsError, or it returned a response whose .text
property may be absent. -/
inductive ApiOutcome where
  | failure (e : JsError)
  | response (text : Option String)
deriving DecidableEq, Repr

/-- The catch block of analyzeImage (index.tsx lines 562-582): every
caught error is replaced by a newly constructed Error whose message is
chosen by substring / status inspection.  Every branch builds a plain
Error: name "Error" and no status field. -/
def rewriteError (e : JsError) : JsError :=
  if strContains e.msg "API_KEY" then
    ⟨"Error", "API Key 无效或未配置。请检查 .env.local 文件中的 GEMINI_API_KEY。", none⟩
  else if strContains e.msg "quota" || e.status == some 429 then
    ⟨"Error", "API 配额已用完。请稍后再试或检查您的 Gemini API 配额。", none⟩
  else if e.status == some 403 then
    ⟨"Error", "API 访问被拒绝。请检查 API Key 权限设置。", none⟩
  else if e.status == some 400 then
    ⟨"Error", "请求格式错误。图片可能损坏或格式不支持。", none⟩
  else if e.name == "NetworkError" || strContains e.msg "fetch" then
    ⟨"Error", "网络连接失败。请检查网络连接并重试。", none⟩
  else
    ⟨"Error", "分析失败: " ++ (if e.msg = "" then "未知错误" else e.msg), none⟩

/-- The inference client analyzeImage (index.tsx lines 491-583).
apiKey models process.env.API_KEY (none or empty string is falsy);
outcome models the generateContent call; parse models the host
JSON.parse applied to the textual payload followed by the unchecked
cast to AnalysisResult, failing with the parser exception on malformed
JSON.  A missing API key throws before the try block (plain Error, no
status); inside the try, a missing or empty text throws, and that
throw - like the API failure and the parse failure - is caught by the
catch block and rewritten by rewriteError.  A successfully parsed value
is returned with no field validation. -/
def analyzeImage (apiKey : Option String) (outcome : ApiOutcome)
    (parse : String → Except JsError ParsedAnalysisResult) :
    Except JsError ParsedAnalysisResult :=
  if apiKey.getD "" = "" then
    .error ⟨"Error", "API Key not configured. Please check your .env.local file.", none⟩
  else
    match outcome with
    | .failure e => .error (rewriteError e)
    | .response t =>
      if t.getD "" = "" then
        .error (rewriteError ⟨"Error", "No response from AI", none⟩)
      else
        match parse (t.getD "") with
        | .error e => .error (rewriteError e)
        | .ok r => .ok r

/-- Observable outcome of one run of the retry wrapper: the final result
(value or thrown error), the number of attempts performed, and the list
of backoff delays slept between attempts, in milliseconds and in
order. -/
structure RunResult (A : Type) where
  result : Except JsError A
  attemptsMade : Nat
  delays : List Nat
deriving Repr

/-- The for-loop of analyzeImageWithRetry (index.tsx lines 469-486).
f gives the outcome of the attempt with the given 1-based number;
attempt is the current loop counter and remaining the number of loop
iterations still permitted (so attempt < maxRetries in the source is
remaining > 1 here).  On failure with status 503 or 429 and a further
iteration permitted, the loop sleeps 2^attempt * 1000 ms and continues;
any other failure is rethrown at once. -/
def retryLoop {A : Type} (f : Nat → Except JsError A) :
    Nat → Nat → RunResult A
  | _, 0 => ⟨.error ⟨"Error", "Failed after multiple retries", none⟩, 0, []⟩
  | attempt, remaining + 1 =>
    match f attempt with
    | .ok a => ⟨.ok a, 1, []⟩
    | .error e =>
      if isTransient e && remaining != 0 then
        let rest := retryLoop f (attempt + 1) remaining
        ⟨rest.result, rest.attemptsMade + 1, (2 ^ attempt * 1000) :: rest.delays⟩
      else
        ⟨.error e, 1, []⟩

/-- analyzeImageWithRetry (index.tsx lines 468-489) over an abstract
per-attempt operation: runs the loop from attempt 1 with maxRetries
iterations permitted.  The trailing throw of a fresh
"Failed after multiple retries" Error is the remaining = 0 case of
retryLoop, reached only when maxRetries = 0. -/
def analyzeImageWithRetry {A : Type} (f : Nat → Except JsError A)
    (maxRetries : Nat) : RunResult A :=
  retryLoop f 1 maxRetries

/-- The composition the source actually runs: analyzeImageWithRetry
calling analyzeImage on every attempt, with the generateContent outcome
of each attempt given by outcomes. -/
def analyzeWithRetryFull (apiKey : Option String)
    (outcomes : Nat → ApiOutcome)
    (parse : String → Except JsError ParsedAnalysisResult)
    (maxRetries : Nat) : RunResult ParsedAnalysisResult :=
  analyzeImageWithRetry (fun k => analyzeImage apiKey (outcomes k) parse) maxRetries

/-- Outcome of loading the input of compressImage into an Image element
(index.tsx lines 830-853): either onerror fires, or onload fires with
the image's natural pixel dimensions. -/
inductive ImgLoad where
  | failure
  | success (width height : Nat)
deriving DecidableEq, Repr

/-- The scale factor computed by compressImage (index.tsx line 840):
Math.min(maxWidth / img.width, maxWidth / img.height), with no cap.
JavaScript number arithmetic on these values is modelled exactly by
rationals. -/
def compressRatio (width height : Nat) (maxWidth : ℚ) : ℚ :=
  min (maxWidth / width) (maxWidth / height)

/-- The canvas dimensions set by compressImage (index.tsx lines 841-842):
width * ratio and height * ratio. -/
def scaledDims (width height : Nat) (maxWidth : ℚ) : ℚ × ℚ :=
  (width * compressRatio width height maxWidth,
   height * compressRatio width height maxWidth)

/-- compressImage (index.tsx lines 828-855).  load models the Image
decode outcome, hasCtx whether canvas.getContext returned a context, and
encode the canvas re-encoding (drawImage + toDataURL + split) applied to
the scaled dimensions and quality.  The promise only ever resolves: on
decode failure, and on a missing context, it resolves with the original
input unchanged. -/
def compressImage (load : ImgLoad) (hasCtx : Bool)
    (encode : ℚ → ℚ → ℚ → String) (base64 : String)
    (maxWidth quality : ℚ) : String :=
  match load with
  | .failure => base64
  | .success w h =>
    if hasCtx then
      encode (scaledDims w h maxWidth).1 (scaledDims w h maxWidth).2 quality
    else
      base64

/-- MacroNutrients (index.tsx lines 444-449). -/
structure MacroNutrients where
  protein : Int
  carbs : Int
  fat : Int
  fiber : Int
deriving DecidableEq, Repr

/-- AnalysisResult (index.tsx lines 451-458): the fully populated value
object stored in history records. -/
structure AnalysisResult where
  foodName : String
  calories : Int
  servingSize : String
  macros : MacroNutrients
  healthAnalysis : String
  rating : Int
deriving DecidableEq, Repr

/-- The mealType union of MealRecord (index.tsx line 465). -/
inductive MealType where
  | breakfast
  | lunch
  | dinner
  | snack
deriving DecidableEq, Repr

/-- MealRecord (index.tsx lines 460-466). -/
structure MealRecord where
  id : String
  timestamp : Nat
  image : String
  result : AnalysisResult
  mealType : MealType
deriving DecidableEq, Repr

/-- JSON string literal for a mealType tag. -/
def mealTypeStr : MealType → String
  | .breakfast => "breakfast"
  | .lunch => "lunch"
  | .dinner => "dinner"
  | .snack => "snack"

/-- JSON encoding of a string value, for the JSON.stringify model.  The
strings stored in records (time-derived ids, base64 image payloads, and
model-produced text) are assumed to need no JSON character escaping. -/
def encodeString (s : String) : String :=
  "\"" ++ s ++ "\""

/-- JSON.stringify of a MacroNutrients object, key order as declared. -/
def encodeMacros (m : MacroNutrients) : String :=
  "\x7b\"protein\":" ++ toString m.protein ++
  ",\"carbs\":" ++ toString m.carbs ++
  ",\"fat\":" ++ toString m.fat ++
  ",\"fiber\":" ++ toString m.fiber ++ "\x7d"

/-- JSON.stringify of an AnalysisResult object, key order as declared. -/
def encodeResult (r : AnalysisResult) : String :=
  "\x7b\"foodName\":" ++ encodeString r.foodName ++
  ",\"calories\":" ++ toString r.calories ++
  ",\"servingSize\":" ++ encodeString r.servingSize ++
  ",\"macros\":" ++ encodeMacros r.macros ++
  ",\"healthAnalysis\":" ++ encodeString r.healthAnalysis ++
  ",\"rating\":" ++ toString r.rating ++ "\x7d"

/-- JSON.stringify of a MealRecord object, key order as declared. -/
def encodeRecord (r : MealRecord) : String :=
  "\x7b\"id\":" ++ encodeString r.id ++
  ",\"timestamp\":" ++ toString r.timestamp ++
  ",\"image\":" ++ encodeString r.image ++
  ",\"result\":" ++ encodeResult r.result ++
  ",\"mealType\":" ++ encodeString (mealTypeStr r.mealType) ++ "\x7d"

/-- Comma-joined element encodings of a record array. -/
def serializeAux : List MealRecord → String
  | [] => ""
  | [r] => encodeRecord r
  | r :: rest => encodeRecord r ++ "," ++ serializeAux rest

/-- JSON.stringify of a MealRecord array (the testData of saveMealRecord,
index.tsx line 887). -/
def serializeRecords (l : List MealRecord) : String :=
  "[" ++ serializeAux l ++ "]"

/-- The storage update of saveMealRecord (index.tsx lines 881-895): read
the existing records, prepend the new record, keep only the first 20,
and if the serialization of that collection exceeds 4 * 1024 * 1024
characters persist only its first 10 records, otherwise persist it.
The function returns the collection persisted to the mealHistory slot.
The surrounding record construction (compression, Date.now id) and the
QuotaExceededError catch concern external collaborators and are outside
this function. -/
def saveMealRecord (existing : List MealRecord) (record : MealRecord) :
    List MealRecord :=
  let updatedRecords := (record :: existing).take 20
  if 4 * 1024 * 1024 < (serializeRecords updatedRecords).length then
    updatedRecords.take 10
  else
    updatedRecords

/-- Iterated saves through saveMealRecord, oldest first, threading the
persisted collection (the JSON round-trip through localStorage between
consecutive saves is the host's and is modelled as the identity). -/
def saveAll (init : List MealRecord) (records : List MealRecord) :
    List MealRecord :=
  records.foldl saveMealRecord init

/-- Decidable check that a sequence of saves never trips the 4 MiB
fallback branch of saveMealRecord: at every step the serialization of
the capped collection stays within budget. -/
def noOverflowB (init : List MealRecord) : List MealRecord → Bool
  | [] => true
  | r :: rest =>
    ((serializeRecords ((r :: init).take 20)).length ≤ 4 * 1024 * 1024) &&
    noOverflowB (saveMealRecord init r) rest

/-- The raw string getMealHistory parses (index.tsx line 915):
localStorage.getItem('mealHistory') || '[]', where an absent slot (null)
and an empty string are both falsy. -/
def storedRaw (slot : Option String) : String :=
  if slot.getD "" = "" then "[]" else slot.getD ""

/-- getMealHistory (index.tsx lines 913-920): parse the stored payload;
on any parse exception return the empty collection.  parse models the
host JSON.parse on this slot. -/
def getMealHistory (parse : String → Except JsError (List MealRecord))
    (slot : Option String) : List MealRecord :=
  match parse (storedRaw slot) with
  | .ok l => l
  | .error _ => []

/-- AnalysisResult of the app.tsx variant (app.tsx lines 14-24): the
persisted entity there embeds id, timestamp and image directly. -/
structure AppAnalysisResult where
  id : String
  timestamp : Nat
  foodName : String
  calories : Int
  servingSize : String
  macros : MacroNutrients
  healthAnalysis : String
  rating : Int
  image : String
deriving DecidableEq, Repr

/-- handleSaveRecord (app.tsx lines 598-614) composed with saveData
(app.tsx lines 99-105): the new record is appended to the end of the
collection ([...records, newRecord]) and the whole collection is
persisted with no capacity cap.  Returns the persisted collection. -/
def handleSaveRecord (records : List AppAnalysisResult)
    (newRecord : AppAnalysisResult) : List AppAnalysisResult :=
  records ++ [newRecord]

/-- loadData (app.tsx lines 90-97): an absent or empty slot yields the
empty collection without parsing; otherwise parse, and on any parse
exception return the empty collection. -/
def loadData (parse : String → Except JsError (List AppAnalysisResult))
    (slot : Option String) : List AppAnalysisResult :=
  match slot with
  | none => []
  | some s =>
    if s = "" then []
    else
      match parse s with
      | .ok l => l
      | .error _ => []

/-- Unfolding lemma: a successful attempt ends the loop at once. -/
theorem retryLoop_ok {A : Type} (f : Nat → Except JsError A) (a rem : Nat)
    (x : A) (h : f a = .ok x) :
    retryLoop f a (rem + 1) = ⟨.ok x, 1, []⟩ := by
  simp [retryLoop, h]

/-- Unfolding lemma: a non-transient failure is rethrown at once. -/
theorem retryLoop_stop {A : Type} (f : Nat → Except JsError A) (a rem : Nat)
    (e : JsError) (h : f a = .error e) (ht : isTransient e = false) :
    retryLoop f a (rem + 1) = ⟨.error e, 1, []⟩ := by
  simp [retryLoop, h, ht]

/-- Unfolding lemma: on the last permitted attempt even a transient
failure is rethrown. -/
theorem retryLoop_last {A : Type} (f : Nat → Except JsError A) (a : Nat)
    (e : JsError) (h : f a = .error e) :
    retryLoop f a 1 = ⟨.error e, 1, []⟩ := by
  simp [retryLoop, h]

/-- Unfolding lemma: a transient failure with attempts to spare sleeps
2^attempt seconds (in ms) and continues with the next attempt. -/
theorem retryLoop_step {A : Type} (f : Nat → Except JsError A) (a rem : Nat)
    (e : JsError) (h : f a = .error e) (ht : isTransient e = true)
    (hr : rem ≠ 0) :
    retryLoop f a (rem + 1) =
      ⟨(retryLoop f (a + 1) rem).result,
       (retryLoop f (a + 1) rem).attemptsMade + 1,
       2 ^ a * 1000 :: (retryLoop f (a + 1) rem).delays⟩ := by
  simp [retryLoop, h, ht, hr]

/-- The loop performs at most as many attempts as it has iterations. -/
theorem retryLoop_attempts_le {A : Type} (f : Nat → Except JsError A) :
    ∀ rem a, (retryLoop f a rem).attemptsMade ≤ rem := by
  intro rem
  induction rem with
  | zero => intro a; simp [retryLoop]
  | succ n ih =>
    intro a
    cases hf : f a with
    | ok x => rw [retryLoop_ok f a n x hf]; simp
    | error e =>
      cases ht : isTransient e with
      | false => rw [retryLoop_stop f a n e hf ht]; simp
      | true =>
        rcases Nat.eq_zero_or_pos n with hn | hn
        · subst hn
          rw [retryLoop_last f a e hf]
        · rw [retryLoop_step f a n e hf ht (by omega)]
          have h2 := ih (a + 1)
          show (retryLoop f (a + 1) n).attemptsMade + 1 ≤ n + 1
          omega

/-- Every attempt that was followed by another attempt failed with a
transient error (status 503 or 429): the loop retries on nothing else.
Attempts are numbered a, a+1, ...; the attempt with offset j is followed
by another one exactly when j + 1 < attemptsMade. -/
theorem retryLoop_mid_transient {A : Type} (f : Nat → Except JsError A) :
    ∀ rem a j, j + 1 < (retryLoop f a rem).attemptsMade →
      ∃ e, f (a + j) = .error e ∧ isTransient e = true := by
  intro rem
  induction rem with
  | zero => intro a j hj; simp [retryLoop] at hj
  | succ n ih =>
    intro a j hj
    cases hf : f a with
    | ok x => rw [retryLoop_ok f a n x hf] at hj; simp at hj
    | error e =>
      cases ht : isTransient e with
      | false => rw [retryLoop_stop f a n e hf ht] at hj; simp at hj
      | true =>
        rcases Nat.eq_zero_or_pos n with hn | hn
        · subst hn
          rw [retryLoop_last f a e hf] at hj
          simp at hj
        · rw [retryLoop_step f a n e hf ht (by omega)] at hj
          cases j with
          | zero => exact ⟨e, by simpa using hf, ht⟩
          | succ m =>
            have hj2 : m + 1 < (retryLoop f (a + 1) n).attemptsMade := by
              simpa using hj
            have := ih (a + 1) m hj2
            simpa [Nat.add_assoc, Nat.add_comm, Nat.add_left_comm] using this

/-- When every permitted attempt fails with a transient error, the loop
uses all of them and its final result is the error of the last attempt,
rethrown as it is. -/
theorem retryLoop_all_transient {A : Type} (f : Nat → Except JsError A)
    (es : Nat → JsError) :
    ∀ rem a, 1 ≤ rem →
      (∀ j, j < rem → f (a + j) = .error (es (a + j)) ∧
        isTransient (es (a + j)) = true) →
      (retryLoop f a rem).result = .error (es (a + rem - 1)) ∧
      (retryLoop f a rem).attemptsMade = rem := by
  intro rem
  induction rem with
  | zero => intro a h0; omega
  | succ n ih =>
    intro a _ hall
    have h0 := hall 0 (by omega)
    simp only [Nat.add_zero] at h0
    rcases Nat.eq_zero_or_pos n with hn | hn
    · subst hn
      rw [retryLoop_last f a (es a) h0.1]
      simp
    · rw [retryLoop_step f a n (es a) h0.1 h0.2 (by omega)]
      have hall2 : ∀ j, j < n → f (a + 1 + j) = .error (es (a + 1 + j)) ∧
          isTransient (es (a + 1 + j)) = true := by
        intro j hjn
        have := hall (j + 1) (by omega)
        simpa [Nat.add_assoc, Nat.add_comm, Nat.add_left_comm] using this
      have hrec := ih (a + 1) (by omega) hall2
      constructor
      · show (retryLoop f (a + 1) n).result = _
        rw [hrec.1]
        have harg : a + 1 + n - 1 = a + (n + 1) - 1 := by omega
        rw [harg]
      · show (retryLoop f (a + 1) n).attemptsMade + 1 = n + 1
        have h3 := hrec.2
        omega

/-- The i-th backoff delay slept by the loop started at attempt a is
2^(a+i) * 1000 milliseconds. -/
theorem retryLoop_delays {A : Type} (f : Nat → Except JsError A) :
    ∀ rem a i, i < (retryLoop f a rem).delays.length →
      (retryLoop f a rem).delays.getD i 0 = 2 ^ (a + i) * 1000 := by
  intro rem
  induction rem with
  | zero => intro a i hi; simp [retryLoop] at hi
  | succ n ih =>
    intro a i hi
    cases hf : f a with
    | ok x => rw [retryLoop_ok f a n x hf] at hi; simp at hi
    | error e =>
      cases ht : isTransient e with
      | false => rw [retryLoop_stop f a n e hf ht] at hi; simp at hi
      | true =>
        rcases Nat.eq_zero_or_pos n with hn | hn
        · subst hn
          rw [retryLoop_last f a e hf] at hi
          simp at hi
        · rw [retryLoop_step f a n e hf ht (by omega)] at hi ⊢
          cases i with
          | zero => simp
          | succ m =>
            have hm : m < (retryLoop f (a + 1) n).delays.length := by
              simpa using hi
            have := ih (a + 1) m hm
            simpa [Nat.add_assoc, Nat.add_comm, Nat.add_left_comm] using this

/-- Truncating the right summand of an append to n elements does not
change the first n elements of the append. -/
theorem take_append_take {α : Type} (A B : List α) (n : Nat) :
    (A ++ B.take n).take n = (A ++ B).take n := by
  rw [List.take_append_eq_append_take, List.take_append_eq_append_take,
    List.take_take]
  have h : min (n - A.length) n = n - A.length := by omega
  rw [h]

/-- When the capped collection serializes within the 4 MiB budget,
saveMealRecord persists exactly the prepend-then-truncate collection. -/
theorem saveMealRecord_no_overflow (existing : List MealRecord)
    (record : MealRecord)
    (h : (serializeRecords ((record :: existing).take 20)).length ≤
      4 * 1024 * 1024) :
    saveMealRecord existing record = (record :: existing).take 20 := by
  simp only [saveMealRecord]
  rw [if_neg (by omega)]

/-- Shape of an overflow-free run of saves: starting from a collection
already within the 20-record cap, the persisted collection is the first
20 elements of the reversed save sequence prepended to the initial
collection. -/
theorem saveAll_no_overflow :
    ∀ (records : List MealRecord) (init : List MealRecord),
      init.length ≤ 20 → noOverflowB init records = true →
      saveAll init records = (records.reverse ++ init).take 20 := by
  intro records
  induction records with
  | nil =>
    intro init hlen _
    simp [saveAll, List.take_of_length_le hlen]
  | cons r rest ih =>
    intro init hlen hno
    simp only [noOverflowB, Bool.and_eq_true, decide_eq_true_eq] at hno
    have hstep := saveMealRecord_no_overflow init r hno.1
    have hrest : saveAll init (r :: rest) = saveAll ((r :: init).take 20) rest := by
      simp only [saveAll, List.foldl_cons, hstep]
    rw [hrest, ih ((r :: init).take 20) (by simp) (by rw [← hstep]; exact hno.2)]
    rw [take_append_take]
    simp [List.append_assoc]

/-- Length of a string built from an explicit character list. -/
theorem strLength_mk (l : List Char) : (String.mk l).length = l.length :=
  rfl

/-- The encoding of a record is at least as long as its image payload. -/
theorem encodeRecord_length_ge (r : MealRecord) :
    r.image.length ≤ (encodeRecord r).length := by
  simp only [encodeRecord, encodeString, String.length_append]
  omega

/-- Serialized length of a one-record array. -/
theorem serializeRecords_single (r : MealRecord) :
    (serializeRecords [r]).length = (encodeRecord r).length + 2 := by
  have h1 : ("[" : String).length = 1 := rfl
  have h2 : ("]" : String).length = 1 := rfl
  simp only [serializeRecords, serializeAux, String.length_append, h1, h2]
  omega

/-- A rate-limit failure as the API surfaces it: status 429. -/
def q429 : JsError := ⟨"Error", "Resource has been exhausted", some 429⟩

/-- A bad-request failure as the API surfaces it: status 400. -/
def badReq : JsError := ⟨"Error", "Request contains an invalid argument", some 400⟩

/-- A parsed result carrying no fields at all (the runtime value obtained
from the payload consisting of an empty JSON object). -/
def emptyParsed : ParsedAnalysisResult := ⟨none, none, none, none, none, none⟩

/-- Attempt outcomes for the quota scenario: the first three attempts hit
the rate limit, the fourth would succeed. -/
def quotaScenario : Nat → Except JsError ParsedAnalysisResult :=
  fun k => if k ≤ 3 then .error q429 else .ok emptyParsed

/-- C1: the retry wrapper retries only on failures with status 429 (rate
limit / QuotaExceededError) or 503 (service unavailable); any other
failure of any attempt, in particular a single BadRequestError, is
rethrown at once, so only one attempt is made. -/
theorem withRetry_only_transient {A : Type} (f : Nat → Except JsError A)
    (m k : Nat) (e : JsError) (hm : 1 ≤ m) :
    (1 ≤ k → k < (analyzeImageWithRetry f m).attemptsMade →
      ∃ e2, f k = .error e2 ∧ isTransient e2 = true) ∧
    (f 1 = .error e → isTransient e = false →
      analyzeImageWithRetry f m = ⟨.error e, 1, []⟩) := by
  constructor
  · intro hk1 hk2
    have hmid := retryLoop_mid_transient f m 1 (k - 1)
      (by have : k - 1 + 1 = k := by omega
          rw [this]
          exact hk2)
    obtain ⟨e2, he⟩ := hmid
    refine ⟨e2, ?_, he.2⟩
    have hidx : 1 + (k - 1) = k := by omega
    rw [hidx] at he
    exact he.1
  · intro h1 ht
    obtain ⟨m2, rfl⟩ : ∃ m2, m = m2 + 1 := ⟨m - 1, by omega⟩
    exact retryLoop_stop f 1 m2 e h1 ht

/-- Witness for C1 at a concrete run: a single BadRequestError (status
400) is rethrown after exactly one attempt, with no sleep. -/
theorem withRetry_only_transient_witness :
    analyzeImageWithRetry (fun _ => (Except.error badReq :
      Except JsError ParsedAnalysisResult)) 3 = ⟨.error badReq, 1, []⟩ :=
  (withRetry_only_transient (fun _ => Except.error badReq) 3 1 badReq
    (by norm_num)).2 rfl rfl

/-- C5: the wrapper makes at most maxRetries attempts; the i-th backoff
delay (0-based, slept before attempt i+2) is 2^(i+1) * 1000 ms, that is
2^(n-1) seconds before attempt n (2s before attempt 2, 4s before attempt
3); and on three consecutive rate-limit failures with maxRetries = 3 the
run fails after exactly 3 attempts and delays of 2s and 4s, never
reaching the 4th attempt that would have succeeded. -/
theorem withRetry_backoff_schedule {A : Type}
    (f : Nat → Except JsError A) (m i : Nat)
    (hi : i < (analyzeImageWithRetry f m).delays.length) :
    (analyzeImageWithRetry f m).attemptsMade ≤ m ∧
    (analyzeImageWithRetry f m).delays.getD i 0 = 2 ^ (i + 1) * 1000 ∧
    (analyzeImageWithRetry quotaScenario 3).result = .error q429 ∧
    (analyzeImageWithRetry quotaScenario 3).attemptsMade = 3 ∧
    (analyzeImageWithRetry quotaScenario 3).delays = [2000, 4000] ∧
    quotaScenario 4 = .ok emptyParsed := by
  refine ⟨retryLoop_attempts_le f m 1, ?_, rfl, rfl, rfl, rfl⟩
  have hd := retryLoop_delays f m 1 i hi
  rwa [Nat.add_comm] at hd

/-- Witness for C5: the quota scenario run itself, at delay index 0. -/
theorem withRetry_backoff_schedule_witness :
    (analyzeImageWithRetry quotaScenario 3).attemptsMade ≤ 3 ∧
    (analyzeImageWithRetry quotaScenario 3).delays.getD 0 0 = 2 ^ (0 + 1) * 1000 ∧
    (analyzeImageWithRetry quotaScenario 3).result = .error q429 ∧
    (analyzeImageWithRetry quotaScenario 3).attemptsMade = 3 ∧
    (analyzeImageWithRetry quotaScenario 3).delays = [2000, 4000] ∧
    quotaScenario 4 = .ok emptyParsed :=
  withRetry_backoff_schedule quotaScenario 3 0 (by decide)

/-- C9 (amended): when every permitted attempt fails with a retriable
(status 429/503) error, the wrapper uses all maxRetries attempts and its
final failure is the last underlying error itself, rethrown unchanged;
no wrapping RetriesExhaustedError is constructed on this path. -/
theorem withRetry_exhaustion_rethrows_last {A : Type}
    (f : Nat → Except JsError A) (es : Nat → JsError) (m : Nat)
    (hm : 1 ≤ m)
    (hall : ∀ k, 1 ≤ k → k ≤ m →
      f k = .error (es k) ∧ isTransient (es k) = true) :
    (analyzeImageWithRetry f m).result = .error (es m) ∧
    (analyzeImageWithRetry f m).attemptsMade = m := by
  have hall2 : ∀ j, j < m → f (1 + j) = .error (es (1 + j)) ∧
      isTransient (es (1 + j)) = true := fun j hj =>
    hall (1 + j) (by omega) (by omega)
  have h := retryLoop_all_transient f es m 1 hm hall2
  have hidx : 1 + m - 1 = m := by omega
  rw [hidx] at h
  exact h

/-- Witness for C9's amended statement: three rate-limit failures with
maxRetries = 3 end in the third underlying error, after 3 attempts. -/
theorem withRetry_exhaustion_rethrows_last_witness :
    (analyzeImageWithRetry (fun _ => (Except.error q429 :
      Except JsError ParsedAnalysisResult)) 3).result =
      .error ((fun _ => q429) 3) ∧
    (analyzeImageWithRetry (fun _ => (Except.error q429 :
      Except JsError ParsedAnalysisResult)) 3).attemptsMade = 3 :=
  withRetry_exhaustion_rethrows_last (fun _ => Except.error q429)
    (fun _ => q429) 3 (by norm_num) (fun k _ _ => ⟨rfl, rfl⟩)

/-- Counterexample to C9 as stated: on a run where all three attempts
fail with the same rate-limit error, the final failure is that
underlying error itself - its message is the API's, not the terminal
"Failed after multiple retries" wrapper - so no RetriesExhaustedError
wrapping the last error is produced. -/
theorem withRetry_exhaustion_cex :
    (analyzeImageWithRetry (fun _ => (Except.error q429 :
      Except JsError ParsedAnalysisResult)) 3).result = .error q429 ∧
    q429.msg ≠ "Failed after multiple retries" ∧
    q429.status = some 429 := by
  refine ⟨rfl, by decide, rfl⟩

/-- Every error built by the rewriting catch block is a plain Error with
no status field. -/
theorem rewriteError_status (e : JsError) : (rewriteError e).status = none := by
  unfold rewriteError
  repeat' split
  all_goals rfl

/-- Every failure surfaced by analyzeImage is a newly constructed Error
with no status field. -/
theorem analyzeImage_error_status (apiKey : Option String)
    (outcome : ApiOutcome)
    (parse : String → Except JsError ParsedAnalysisResult) (e : JsError)
    (h : analyzeImage apiKey outcome parse = .error e) : e.status = none := by
  unfold analyzeImage at h
  by_cases hk : apiKey.getD "" = ""
  · rw [if_pos hk] at h
    simp only [Except.error.injEq] at h
    rw [← h]
  · rw [if_neg hk] at h
    cases outcome with
    | failure e2 =>
      simp only [Except.error.injEq] at h
      rw [← h]
      exact rewriteError_status e2
    | response t =>
      dsimp only at h
      by_cases ht : t.getD "" = ""
      · rw [if_pos ht] at h
        simp only [Except.error.injEq] at h
        rw [← h]
        exact rewriteError_status _
      · rw [if_neg ht] at h
        cases hp : parse (t.getD "") with
        | error e2 =>
          rw [hp] at h
          simp only [Except.error.injEq] at h
          rw [← h]
          exact rewriteError_status e2
        | ok r =>
          rw [hp] at h
          simp at h

/-- C6: every failure surfaced by analyzeImage carries no status field,
so the transient test of analyzeImageWithRetry is false on it and the
composed retry-enabled call makes exactly one attempt, rethrowing that
error. -/
theorem analyzeImage_errors_not_retriable (apiKey : Option String)
    (outcomes : Nat → ApiOutcome)
    (parse : String → Except JsError ParsedAnalysisResult)
    (m : Nat) (e : JsError) (hm : 1 ≤ m)
    (h1 : analyzeImage apiKey (outcomes 1) parse = .error e) :
    e.status = none ∧ isTransient e = false ∧
    analyzeWithRetryFull apiKey outcomes parse m = ⟨.error e, 1, []⟩ := by
  have hs := analyzeImage_error_status apiKey (outcomes 1) parse e h1
  have ht : isTransient e = false := by simp [isTransient, hs]
  refine ⟨hs, ht, ?_⟩
  obtain ⟨m2, rfl⟩ : ∃ m2, m = m2 + 1 := ⟨m - 1, by omega⟩
  show retryLoop (fun k => analyzeImage apiKey (outcomes k) parse) 1 (m2 + 1) = _
  exact retryLoop_stop (fun k => analyzeImage apiKey (outcomes k) parse) 1 m2 e h1 ht

/-- Witness for C6: with a missing API key the classifier's own Error is
surfaced, it has no status, and the retry-enabled run makes exactly one
attempt. -/
theorem analyzeImage_errors_not_retriable_witness :
    (⟨"Error", "API Key not configured. Please check your .env.local file.", none⟩ :
        JsError).status = none ∧
    isTransient ⟨"Error", "API Key not configured. Please check your .env.local file.", none⟩ = false ∧
    analyzeWithRetryFull none (fun _ => .response none)
      (fun _ => .ok emptyParsed) 3 =
      ⟨.error ⟨"Error", "API Key not configured. Please check your .env.local file.", none⟩, 1, []⟩ :=
  analyzeImage_errors_not_retriable none (fun _ => .response none)
    (fun _ => .ok emptyParsed) 3
    ⟨"Error", "API Key not configured. Please check your .env.local file.", none⟩
    (by norm_num) rfl

/-- Model of the host JSON.parse composed with the unchecked cast, as
it behaves on the payload consisting of an empty JSON object: the parse
succeeds and produces a value carrying none of the required fields; any
other input is taken malformed and raises a SyntaxError. -/
def jsonParseAtEmptyObj : String → Except JsError ParsedAnalysisResult :=
  fun s =>
    if s = "\x7b\x7d" then .ok emptyParsed
    else .error ⟨"SyntaxError", "Unexpected end of JSON input", none⟩

/-- C3 (amended): with a configured key, analyzeImage fails on an absent
or empty textual payload (the empty-response throw, surfaced through the
rewriting catch block as a plain Error) and fails when JSON parsing of
the payload raises (the parse exception, likewise rewritten); but a
successfully parsed value is returned as-is, with no field-presence
validation. -/
theorem analyzeImage_response_contract (k t : String)
    (parse : String → Except JsError ParsedAnalysisResult)
    (e : JsError) (r : ParsedAnalysisResult)
    (hk : k ≠ "") (htne : t ≠ "") :
    (analyzeImage (some k) (.response none) parse =
      .error ⟨"Error", "分析失败: No response from AI", none⟩) ∧
    (analyzeImage (some k) (.response (some "")) parse =
      .error ⟨"Error", "分析失败: No response from AI", none⟩) ∧
    (parse t = .error e →
      analyzeImage (some k) (.response (some t)) parse =
        .error (rewriteError e)) ∧
    (parse t = .ok r →
      analyzeImage (some k) (.response (some t)) parse = .ok r) := by
  refine ⟨?_, ?_, ?_, ?_⟩
  · simp [analyzeImage, hk]
    rfl
  · simp [analyzeImage, hk]
    rfl
  · intro hp
    simp [analyzeImage, hk, htne, hp]
  · intro hp
    simp [analyzeImage, hk, htne, hp]

/-- Witness for C3's amended statement at concrete inputs: key "key",
malformed payload "x". -/
theorem analyzeImage_response_contract_witness :
    (analyzeImage (some "key") (.response none) jsonParseAtEmptyObj =
      .error ⟨"Error", "分析失败: No response from AI", none⟩) ∧
    (analyzeImage (some "key") (.response (some "")) jsonParseAtEmptyObj =
      .error ⟨"Error", "分析失败: No response from AI", none⟩) ∧
    (jsonParseAtEmptyObj "x" =
        .error ⟨"SyntaxError", "Unexpected end of JSON input", none⟩ →
      analyzeImage (some "key") (.response (some "x")) jsonParseAtEmptyObj =
        .error (rewriteError ⟨"SyntaxError", "Unexpected end of JSON input", none⟩)) ∧
    (jsonParseAtEmptyObj "x" = .ok emptyParsed →
      analyzeImage (some "key") (.response (some "x")) jsonParseAtEmptyObj =
        .ok emptyParsed) :=
  analyzeImage_response_contract "key" "x" jsonParseAtEmptyObj
    ⟨"SyntaxError", "Unexpected end of JSON input", none⟩ emptyParsed
    (by decide) (by decide)

/-- Counterexample to C3 as stated: the payload consisting of an empty
JSON object is valid JSON missing every required AnalysisResult field,
yet analyzeImage accepts it silently and returns the field-less value -
no MalformedResultError is raised for missing fields. -/
theorem analyzeImage_missing_fields_cex :
    analyzeImage (some "key") (.response (some "\x7b\x7d"))
      jsonParseAtEmptyObj = .ok emptyParsed ∧
    emptyParsed.foodName = none ∧ emptyParsed.calories = none ∧
    emptyParsed.servingSize = none ∧ emptyParsed.macros = none ∧
    emptyParsed.healthAnalysis = none ∧ emptyParsed.rating = none := by
  refine ⟨rfl, rfl, rfl, rfl, rfl, rfl, rfl⟩

/-- C4: compressImage only ever resolves (it is a total function of the
decode outcome); when decoding the input fails it resolves with the
original input bytes unchanged, and likewise when no canvas context is
available. -/
theorem compressImage_decode_failure_safe (hasCtx : Bool)
    (encode : ℚ → ℚ → ℚ → String) (base64 : String)
    (maxWidth quality : ℚ) :
    compressImage .failure hasCtx encode base64 maxWidth quality = base64 ∧
    (∀ w h, compressImage (.success w h) false encode base64 maxWidth quality
      = base64) :=
  ⟨rfl, fun _ _ => rfl⟩

/-- C10 (amended): the scale factor is min(maxDimension/width,
maxDimension/height) with no cap at 1.0, so an image whose dimensions
are both strictly below maxDimension is upscaled: the factor exceeds 1
and both canvas dimensions strictly exceed the originals. -/
theorem compressRatio_uncapped_upscales (w h : Nat) (maxWidth : ℚ)
    (hw : 0 < w) (hh : 0 < h)
    (hwlt : (w : ℚ) < maxWidth) (hhlt : (h : ℚ) < maxWidth) :
    1 < compressRatio w h maxWidth ∧
    (w : ℚ) < (scaledDims w h maxWidth).1 ∧
    (h : ℚ) < (scaledDims w h maxWidth).2 := by
  have hw0 : (0 : ℚ) < w := by exact_mod_cast hw
  have hh0 : (0 : ℚ) < h := by exact_mod_cast hh
  have h1 : 1 < maxWidth / w := by rw [lt_div_iff₀ hw0]; linarith
  have h2 : 1 < maxWidth / h := by rw [lt_div_iff₀ hh0]; linarith
  have hr : 1 < compressRatio w h maxWidth := lt_min h1 h2
  refine ⟨hr, ?_, ?_⟩
  · show (w : ℚ) < w * compressRatio w h maxWidth
    nlinarith
  · show (h : ℚ) < h * compressRatio w h maxWidth
    nlinarith

/-- Witness for C10's amended statement: a 100 x 100 image with
maxDimension 800 is scaled by a factor above 1. -/
theorem compressRatio_uncapped_upscales_witness :
    1 < compressRatio 100 100 800 ∧
    ((100 : Nat) : ℚ) < (scaledDims 100 100 800).1 ∧
    ((100 : Nat) : ℚ) < (scaledDims 100 100 800).2 :=
  compressRatio_uncapped_upscales 100 100 800 (by norm_num) (by norm_num)
    (by norm_num) (by norm_num)

/-- Counterexample to C10 as stated: for a 100 x 100 image and
maxDimension 800 the computed factor is 8, not the capped value 1, and
the resulting canvas width 800 exceeds the original width 100 - the
image is upscaled. -/
theorem compressRatio_cap_cex :
    compressRatio 100 100 800 = 8 ∧
    compressRatio 100 100 800 ≠ min (compressRatio 100 100 800) 1 ∧
    (scaledDims 100 100 800).1 = 800 ∧
    ¬((scaledDims 100 100 800).1 ≤ 100) := by
  norm_num [compressRatio, scaledDims]

/-- A small concrete analysis result for witness runs. -/
def res0 : AnalysisResult := ⟨"Grilled Chicken Salad", 420, "1 bowl", ⟨38, 12, 18, 5⟩, "Lean and balanced.", 8⟩

/-- A small concrete meal record for witness runs. -/
def rec0 : MealRecord := ⟨"1700000000000", 1700000000000, "abc", res0, .snack⟩

/-- C2 (amended, for the index.tsx History Store): as long as no save
trips the 4 MiB fallback, saveMealRecord prepends the new record and
truncates to the 20 most recent, and after any sequence of at least 20
saves the persisted collection is exactly the 20 most recent records in
most-recent-first order (the saves are listed oldest first, so that
collection is the first 20 of their reverse). -/
theorem history_cap_twenty (init records existing : List MealRecord)
    (r : MealRecord) (hlen : init.length ≤ 20)
    (hno : noOverflowB init records = true) (h20 : 20 ≤ records.length)
    (hone : (serializeRecords ((r :: existing).take 20)).length ≤
      4 * 1024 * 1024) :
    saveMealRecord existing r = (r :: existing).take 20 ∧
    saveAll init records = records.reverse.take 20 := by
  refine ⟨saveMealRecord_no_overflow existing r hone, ?_⟩
  rw [saveAll_no_overflow records init hlen hno]
  exact List.take_append_of_le_length (by simpa using h20)

set_option maxRecDepth 100000 in
/-- Witness for C2's amended statement: 21 small saves from an empty
store leave exactly the 20 most recent records, newest first. -/
theorem history_cap_twenty_witness :
    saveMealRecord [] rec0 = ([rec0] : List MealRecord).take 20 ∧
    saveAll [] (List.replicate 21 rec0) =
      (List.replicate 21 rec0).reverse.take 20 :=
  history_cap_twenty [] (List.replicate 21 rec0) [] rec0 (by decide)
    (by decide) (by decide) (by decide)

/-- A concrete app.tsx record. -/
def recA : AppAnalysisResult := ⟨"1", 1, "Apple", 95, "1 medium", ⟨0, 25, 0, 4⟩, "Fruit.", 9, "img1"⟩

/-- Another concrete app.tsx record, distinct from recA. -/
def recB : AppAnalysisResult := ⟨"2", 2, "Burger", 550, "1 item", ⟨25, 40, 30, 2⟩, "Heavy.", 3, "img2"⟩

/-- Counterexample to C2 as stated: the app.tsx variant's save appends
the new record at the end of the collection (not a prepend) and persists
everything with no capacity cap, so 21 saves leave 21 records. -/
theorem handleSaveRecord_append_cex :
    handleSaveRecord [recA] recB = [recA, recB] ∧
    ([recA, recB] : List AppAnalysisResult) ≠ [recB, recA] ∧
    ((List.replicate 21 recB).foldl handleSaveRecord []).length = 21 := by
  refine ⟨rfl, by decide, by decide⟩

/-- C7 (amended): when the capped collection serializes to more than the
4 MiB budget, saveMealRecord persists its first 10 records - at most 10
records - but the serialized size of that fallback collection is not
re-checked, so it is not guaranteed to be back under the budget. -/
theorem saveMealRecord_fallback_cap (existing : List MealRecord)
    (record : MealRecord)
    (h : 4 * 1024 * 1024 <
      (serializeRecords ((record :: existing).take 20)).length) :
    saveMealRecord existing record = ((record :: existing).take 20).take 10 ∧
    (saveMealRecord existing record).length ≤ 10 := by
  have heq : saveMealRecord existing record =
      ((record :: existing).take 20).take 10 := by
    simp only [saveMealRecord]
    rw [if_pos h]
  refine ⟨heq, ?_⟩
  rw [heq]
  simp [List.length_take]

/-- A record whose image payload alone exceeds the 4 MiB budget. -/
def bigImage : String := String.mk (List.replicate 5000000 'a')

/-- The meal record carrying bigImage. -/
def bigRecord : MealRecord := ⟨"1", 0, bigImage, res0, .snack⟩

/-- The serialization of the one-record collection holding bigRecord
exceeds the 4 MiB budget. -/
theorem bigRecord_over_budget :
    4 * 1024 * 1024 < (serializeRecords [bigRecord]).length := by
  have himg : bigRecord.image.length = 5000000 := by
    show bigImage.length = 5000000
    rw [show bigImage = String.mk (List.replicate 5000000 'a') from rfl,
      strLength_mk, List.length_replicate]
  have henc := encodeRecord_length_ge bigRecord
  rw [serializeRecords_single]
  omega

/-- Witness for C7's amended statement: saving bigRecord into an empty
store trips the fallback branch and persists at most 10 records. -/
theorem saveMealRecord_fallback_cap_witness :
    saveMealRecord [] bigRecord =
      ((bigRecord :: ([] : List MealRecord)).take 20).take 10 ∧
    (saveMealRecord [] bigRecord).length ≤ 10 :=
  saveMealRecord_fallback_cap [] bigRecord
    (by simpa using bigRecord_over_budget)

/-- Counterexample to C7 as stated: saving bigRecord trips the 4 MiB
fallback, the persisted collection has at most 10 records, yet its
serialized size still exceeds the budget - it is not back under it. -/
theorem saveMealRecord_budget_cex :
    4 * 1024 * 1024 <
      (serializeRecords ((bigRecord :: ([] : List MealRecord)).take 20)).length ∧
    saveMealRecord [] bigRecord = [bigRecord] ∧
    (saveMealRecord [] bigRecord).length ≤ 10 ∧
    4 * 1024 * 1024 < (serializeRecords (saveMealRecord [] bigRecord)).length := by
  have h1 : ((bigRecord :: ([] : List MealRecord)).take 20) = [bigRecord] := rfl
  have hov : 4 * 1024 * 1024 <
      (serializeRecords ((bigRecord :: ([] : List MealRecord)).take 20)).length := by
    rw [h1]
    exact bigRecord_over_budget
  have hsave : saveMealRecord [] bigRecord = [bigRecord] := by
    simp only [saveMealRecord]
    rw [if_pos (by simpa using hov), h1]
    rfl
  refine ⟨hov, hsave, by rw [hsave]; decide, ?_⟩
  rw [hsave]
  exact bigRecord_over_budget

/-- C8: both loaders are total (parse exceptions are caught), and on any
parse failure - corrupted persisted data - they return the empty
collection; an absent slot likewise yields the empty collection (the
index.tsx variant parses the literal empty-array text, the app.tsx
variant short-circuits). -/
theorem loadAll_parse_failure_safe
    (p : String → Except JsError (List MealRecord))
    (p2 : String → Except JsError (List AppAnalysisResult))
    (slot : Option String) (s : String) (e e2 : JsError) :
    (p (storedRaw slot) = .error e → getMealHistory p slot = []) ∧
    (p "[]" = .ok [] → getMealHistory p none = []) ∧
    (loadData p2 none = []) ∧
    (p2 s = .error e2 → s ≠ "" → loadData p2 (some s) = []) := by
  refine ⟨?_, ?_, rfl, ?_⟩
  · intro h
    simp [getMealHistory, h]
  · intro h
    simp [getMealHistory, storedRaw, h]
  · intro h hs
    simp [loadData, hs, h]

/-- Witness for C8 at a concrete always-failing parser and corrupted
slot content. -/
theorem loadAll_parse_failure_safe_witness :
    ((fun _ => (Except.error ⟨"SyntaxError", "Unexpected token", none⟩ :
        Except JsError (List MealRecord))) (storedRaw (some "corrupt")) =
      .error ⟨"SyntaxError", "Unexpected token", none⟩ →
      getMealHistory (fun _ => .error ⟨"SyntaxError", "Unexpected token", none⟩)
        (some "corrupt") = []) ∧
    ((fun _ => (Except.error ⟨"SyntaxError", "Unexpected token", none⟩ :
        Except JsError (List MealRecord))) "[]" = .ok [] →
      getMealHistory (fun _ => .error ⟨"SyntaxError", "Unexpected token", none⟩)
        none = []) ∧
    (loadData (fun _ => (Except.error ⟨"SyntaxError", "Unexpected token", none⟩ :
        Except JsError (List AppAnalysisResult))) none = []) ∧
    ((fun _ => (Except.error ⟨"SyntaxError", "Unexpected token", none⟩ :
        Except JsError (List AppAnalysisResult))) "corrupt" =
      .error ⟨"SyntaxError", "Unexpected token", none⟩ → "corrupt" ≠ "" →
      loadData (fun _ => .error ⟨"SyntaxError", "Unexpected token", none⟩)
        (some "corrupt") = []) :=
  loadAll_parse_failure_safe
    (fun _ => .error ⟨"SyntaxError", "Unexpected token", none⟩)
    (fun _ => .error ⟨"SyntaxError", "Unexpected token", none⟩)
    (some "corrupt") "corrupt"
    ⟨"SyntaxError", "Unexpected token", none⟩
    ⟨"SyntaxError", "Unexpected token", none⟩
